import Mathlib

/-!
Shallow embedding of the slot-accounting transaction layer of the
coc-server repository (src/database/queries.js), together with the parts
of the committee table interface it interacts with.

The relational store is modelled as lists of rows.  A nullable SQL
integer column is `Option Int` (`none` is SQL NULL; SQL addition with
NULL yields NULL).  A pg-promise query method that can reject is
modelled with `Except SqlError`; a `connection.tx` whose batch fails
rolls the state back, so every operation returns both its settled
result and the post-transaction database state.

pg-promise parameter formatting turns a JavaScript `undefined` value
into SQL NULL; this matters for `updateCommitteeSlots`, whose pre-read
failure is caught (`.catch(err => err)`) and then dereferenced
(`slotDifference.difference`), producing `undefined` and hence a NULL
delta in the aggregate update.
-/

namespace CocServer

/-- A row of the `committee` table:
`committee(committee_id PK, name UNIQUE, description, total_slots)`. -/
structure Committee where
  committee_id : Nat
  name : String
  description : String
  total_slots : Option Int
deriving Repr, DecidableEq

/-- A row of the `committee_slots` table:
`committee_slots(committee_id FK, senate_division_short_name FK,
slot_requirements, UNIQUE(committee_id, senate_division_short_name))`. -/
structure CommitteeSlot where
  committee_id : Nat
  senate_division_short_name : String
  slot_requirements : Int
deriving Repr, DecidableEq

/-- A row of the `senate_division` table (referenced, never mutated here). -/
structure SenateDivision where
  senate_division_short_name : String
  name : String
deriving Repr, DecidableEq

/-- The slice of the relational store the slot-accounting layer touches. -/
structure DB where
  committees : List Committee
  senate_divisions : List SenateDivision
  committee_slots : List CommitteeSlot
deriving Repr, DecidableEq

/-- Store-level failures surfaced to the layer's caller.
`foreignKeyViolation` is Postgres code 23503, `uniqueViolation` is
23505, `queryResultError` is pg-promise's rejection of `one()` when the
row count is not exactly one. -/
inductive SqlError where
  | foreignKeyViolation
  | uniqueViolation
  | queryResultError
deriving Repr, DecidableEq

instance {ε α : Type} [DecidableEq ε] [DecidableEq α] :
    DecidableEq (Except ε α) := fun x y =>
  match x, y with
  | .error a, .error b =>
      if h : a = b then isTrue (by rw [h]) else
        isFalse (fun hc => h (by cases hc; rfl))
  | .ok a, .ok b =>
      if h : a = b then isTrue (by rw [h]) else
        isFalse (fun hc => h (by cases hc; rfl))
  | .error _, .ok _ => isFalse (fun hc => Except.noConfusion hc)
  | .ok _, .error _ => isFalse (fun hc => Except.noConfusion hc)

/-- The Boolean row predicate of
`WHERE committee_id = $1 AND senate_division_short_name = $2`. -/
def matchesPair (cid : Nat) (s : String) (r : CommitteeSlot) : Bool :=
  r.committee_id == cid && r.senate_division_short_name == s

/-- The Boolean row predicate of `WHERE committee_id = $1` on `committee`. -/
def matchesId (cid : Nat) (c : Committee) : Bool :=
  c.committee_id == cid

/-- Does a committee row with this id exist (FK check for inserts). -/
def committeeExists (db : DB) (cid : Nat) : Bool :=
  db.committees.any (matchesId cid)

/-- Does a senate division row with this short name exist (FK check). -/
def divisionExists (db : DB) (s : String) : Bool :=
  db.senate_divisions.any (fun d => d.senate_division_short_name == s)

/-- Does a `committee_slots` row for this composite key exist
(unique-constraint check). -/
def slotExists (db : DB) (cid : Nat) (s : String) : Bool :=
  db.committee_slots.any (matchesPair cid s)

/-- SQL addition on a nullable column: `total_slots + $2` where either
side may be NULL. -/
def sqlAdd (t : Option Int) (d : Option Int) : Option Int :=
  match t, d with
  | some a, some b => some (a + b)
  | _, _ => none

/-- Row effect of the SET clause of
`UPDATE committee SET total_slots = (total_slots + $2) WHERE committee_id = $1`. -/
def bumpTotal (cid : Nat) (d : Option Int) (c : Committee) : Committee :=
  if matchesId cid c then { c with total_slots := sqlAdd c.total_slots d } else c

/-- The statement
`UPDATE committee SET total_slots = (total_slots + $2) WHERE committee_id = $1`
with a possibly-NULL `$2`.  Returns the affected row count and the new
table contents.  It never raises a constraint error. -/
def updateCommitteeTotal (cid : Nat) (d : Option Int) (db : DB) : Nat × DB :=
  let touched := db.committees.filter (matchesId cid)
  let updated := db.committees.map (bumpTotal cid d)
  (touched.length, { db with committees := updated })

/-- The statement
`INSERT INTO committee_slots(committee_id, senate_division_short_name, slot_requirements) VALUES($1, $2, $3) RETURNING committee_id`.
Fails with 23503 when a referenced row is missing and with 23505 when
the composite key already has a row. -/
def insertCommitteeSlot (cid : Nat) (s : String) (n : Int) (db : DB) :
    Except SqlError (Nat × DB) :=
  if !(committeeExists db cid) then .error .foreignKeyViolation
  else if !(divisionExists db s) then .error .foreignKeyViolation
  else if slotExists db cid s then .error .uniqueViolation
  else .ok (cid, { db with committee_slots := db.committee_slots ++ [⟨cid, s, n⟩] })

/-- `addCommitteeSlots(committeeId, senateDivision, slotRequirements)`:
a transaction batching the slot insert and the aggregate increment.  On
success it resolves with the inserted row's `committeeId` and the
aggregate update's row count; a constraint failure rejects the batch
and rolls the whole transaction back. -/
def addCommitteeSlots (committeeId : Nat) (senateDivision : String)
    (slotRequirements : Int) (db : DB) : Except SqlError (Nat × Nat) × DB :=
  match insertCommitteeSlot committeeId senateDivision slotRequirements db with
  | .error e => (.error e, db)
  | .ok (rid, db1) =>
      let step2 := updateCommitteeTotal committeeId (some slotRequirements) db1
      (.ok (rid, step2.1), step2.2)

/-- The pre-read of `updateCommitteeSlots`:
`SELECT $2 - slot_requirements AS difference FROM committee_slots WHERE committee_id = $1 AND senate_division_short_name = $3`
issued through `one()`, which rejects unless exactly one row matches. -/
def selectDifference (committeeId : Nat) (slotRequirements : Int)
    (senateDivision : String) (db : DB) : Except SqlError Int :=
  match db.committee_slots.filter (matchesPair committeeId senateDivision) with
  | [r] => .ok (slotRequirements - r.slot_requirements)
  | _ => .error .queryResultError

/-- Row effect of the SET clause of
`UPDATE committee_slots SET slot_requirements = $1 WHERE ...`. -/
def setSlotReq (cid : Nat) (s : String) (n : Int) (r : CommitteeSlot) : CommitteeSlot :=
  if matchesPair cid s r then { r with slot_requirements := n } else r

/-- The statement
`UPDATE committee_slots SET slot_requirements = $1 WHERE committee_id = $2 AND senate_division_short_name = $3`.
Returns the affected row count and the new table contents. -/
def updateSlotRow (n : Int) (cid : Nat) (s : String) (db : DB) : Nat × DB :=
  let touched := db.committee_slots.filter (matchesPair cid s)
  let updated := db.committee_slots.map (setSlotReq cid s n)
  (touched.length, { db with committee_slots := updated })

/-- `updateCommitteeSlots(committeeId, senateDivision, slotRequirements)`:
first the separate pre-read, whose rejection is caught and replaced by
the error object itself, so that `slotDifference.difference` is
`undefined` (formatted as SQL NULL) whenever the pre-read failed; then
a transaction batching the slot overwrite and the aggregate adjustment.
Neither statement can raise a constraint error, so the transaction
itself always commits and resolves with the two row counts. -/
def updateCommitteeSlots (committeeId : Nat) (senateDivision : String)
    (slotRequirements : Int) (db : DB) : Except SqlError (Nat × Nat) × DB :=
  let slotDifference : Option Int :=
    match selectDifference committeeId slotRequirements senateDivision db with
    | .ok d => some d
    | .error _ => none
  let step1 := updateSlotRow slotRequirements committeeId senateDivision db
  let step2 := updateCommitteeTotal committeeId slotDifference step1.2
  (.ok (step1.1, step2.1), step2.2)

/-- `deleteSlotRequirement(committee_id, senate_division_short_name)`:
`DELETE FROM committee_slots WHERE committee_id = $1 AND senate_division_short_name = $2`
via `connection.result`, resolving with the deleted row count. -/
def deleteSlotRequirement (committee_id : Nat)
    (senate_division_short_name : String) (db : DB) : Except SqlError Nat × DB :=
  let deleted := db.committee_slots.filter (matchesPair committee_id senate_division_short_name)
  let kept := db.committee_slots.filter
    (fun r => !(matchesPair committee_id senate_division_short_name r))
  (.ok deleted.length, { db with committee_slots := kept })

/-- `addCommittee(name, description, slots)`:
`INSERT INTO committee(name, description, total_slots) VALUES($1, $2, $3) RETURNING committee_id`.
`newId` stands for the store-generated primary key; the insert fails on
a duplicate name. -/
def addCommittee (name description : String) (slots : Option Int)
    (newId : Nat) (db : DB) : Except SqlError Nat × DB :=
  if db.committees.any (fun c => c.name == name) then
    (.error .uniqueViolation, db)
  else
    let inserted := db.committees ++ [⟨newId, name, description, slots⟩]
    (.ok newId, { db with committees := inserted })

/-- `updateCommittee(id, name, description, slots)`:
`UPDATE committee SET name = $1, description = $2, total_slots = $3 WHERE committee_id = $4`
inside a transaction, resolving with the affected row count.  Renaming
onto another committee's name trips the unique constraint. -/
def updateCommittee (id : Nat) (name description : String)
    (slots : Option Int) (db : DB) : Except SqlError Nat × DB :=
  if db.committees.any (fun c => c.name == name && c.committee_id != id) then
    (.error .uniqueViolation, db)
  else
    let touched := db.committees.filter (matchesId id)
    let updated := db.committees.map (fun c =>
      if matchesId id c then
        { c with name := name, description := description, total_slots := slots }
      else c)
    (.ok touched.length, { db with committees := updated })

/-- Primary-key and unique-constraint discipline the store enforces:
committee ids are unique and `(committee_id, senate_division_short_name)`
pairs are unique. -/
def committeeIdsUnique : List Committee → Bool
  | [] => true
  | c :: rest =>
      rest.all (fun c2 => c2.committee_id != c.committee_id) &&
      committeeIdsUnique rest

/-- Uniqueness of the composite key over the `committee_slots` rows. -/
def slotPairsUnique : List CommitteeSlot → Bool
  | [] => true
  | r :: rest =>
      rest.all (fun r2 =>
        !(r2.committee_id == r.committee_id &&
          r2.senate_division_short_name == r.senate_division_short_name)) &&
      slotPairsUnique rest

/-- A database state the store's constraints allow. -/
def DB.wf (db : DB) : Prop :=
  committeeIdsUnique db.committees = true ∧
  slotPairsUnique db.committee_slots = true

instance (db : DB) : Decidable db.wf := by
  unfold DB.wf; infer_instance

/-- Sum of `slot_requirements` over the rows of one committee. -/
def slotSum (l : List CommitteeSlot) (cid : Nat) : Int :=
  ((l.filter (fun r => r.committee_id == cid)).map
     (fun r => r.slot_requirements)).sum

/-- The spec's derived-aggregate invariant: every committee's
`total_slots` equals the sum of its slot requirements (in particular it
is not NULL). -/
def DB.invariant (db : DB) : Prop :=
  ∀ c ∈ db.committees, c.total_slots = some (slotSum db.committee_slots c.committee_id)

instance (db : DB) : Decidable db.invariant := by
  unfold DB.invariant; infer_instance

/-! ### Basic lemmas about the row predicates -/

lemma matchesPair_iff (cid : Nat) (s : String) (r : CommitteeSlot) :
    matchesPair cid s r = true ↔
      r.committee_id = cid ∧ r.senate_division_short_name = s := by
  simp [matchesPair]

lemma matchesId_iff (cid : Nat) (c : Committee) :
    matchesId cid c = true ↔ c.committee_id = cid := by
  simp [matchesId]

lemma setSlotReq_of_match {cid : Nat} {s : String} {r : CommitteeSlot}
    (n : Int) (h : matchesPair cid s r = true) :
    setSlotReq cid s n r = { r with slot_requirements := n } := by
  simp [setSlotReq, h]

lemma setSlotReq_of_no_match {cid : Nat} {s : String} {r : CommitteeSlot}
    (n : Int) (h : matchesPair cid s r = false) :
    setSlotReq cid s n r = r := by
  simp [setSlotReq, h]

lemma setSlotReq_committee_id (cid : Nat) (s : String) (n : Int)
    (r : CommitteeSlot) :
    (setSlotReq cid s n r).committee_id = r.committee_id := by
  unfold setSlotReq
  split <;> rfl

lemma bumpTotal_of_match {cid : Nat} {c : Committee} (d : Option Int)
    (h : matchesId cid c = true) :
    bumpTotal cid d c = { c with total_slots := sqlAdd c.total_slots d } := by
  simp [bumpTotal, h]

lemma bumpTotal_of_no_match {cid : Nat} {c : Committee} (d : Option Int)
    (h : matchesId cid c = false) :
    bumpTotal cid d c = c := by
  simp [bumpTotal, h]

/-! ### Consequences of the store's uniqueness constraints -/

/-- Under the composite-key unique constraint, the rows matching one
pair are exactly the one matching row. -/
lemma slotFilter_eq_single {l : List CommitteeSlot} {cid : Nat} {s : String}
    {r : CommitteeSlot} (hu : slotPairsUnique l = true) (hr : r ∈ l)
    (hm : matchesPair cid s r = true) :
    l.filter (matchesPair cid s) = [r] := by
  induction l with
  | nil => cases hr
  | cons h t ih =>
      rw [slotPairsUnique, Bool.and_eq_true, List.all_eq_true] at hu
      obtain ⟨hall, hut⟩ := hu
      obtain ⟨hid, hs⟩ := (matchesPair_iff cid s r).mp hm
      rcases List.mem_cons.mp hr with hrh | hrt
      · subst hrh
        rw [List.filter_cons, if_pos hm]
        have hnil : t.filter (matchesPair cid s) = [] := by
          rw [List.filter_eq_nil_iff]
          intro x hx hmx
          obtain ⟨hxid, hxs⟩ := (matchesPair_iff cid s x).mp hmx
          have := hall x hx
          simp [hxid, hid, hxs, hs] at this
        rw [hnil]
      · have hmh : matchesPair cid s h = false := by
          rcases Bool.eq_false_or_eq_true (matchesPair cid s h) with htr | hf
          · obtain ⟨hhid, hhs⟩ := (matchesPair_iff cid s h).mp htr
            have := hall r hrt
            simp [hid, hhid, hs, hhs] at this
          · exact hf
        rw [List.filter_cons, if_neg (by simp [hmh])]
        exact ih hut hrt

/-- Under the composite-key unique constraint, a pair matches at most
one row. -/
lemma slotFilter_length_le_one (l : List CommitteeSlot) (cid : Nat)
    (s : String) (hu : slotPairsUnique l = true) :
    (l.filter (matchesPair cid s)).length ≤ 1 := by
  induction l with
  | nil => simp
  | cons h t ih =>
      rw [slotPairsUnique, Bool.and_eq_true, List.all_eq_true] at hu
      obtain ⟨hall, hut⟩ := hu
      rw [List.filter_cons]
      rcases Bool.eq_false_or_eq_true (matchesPair cid s h) with htr | hf
      case inr =>
        rw [if_neg (by simp [hf])]
        exact ih hut
      case inl =>
        rw [if_pos htr]
        obtain ⟨hid, hs⟩ := (matchesPair_iff cid s h).mp htr
        have hnil : t.filter (matchesPair cid s) = [] := by
          rw [List.filter_eq_nil_iff]
          intro x hx hmx
          obtain ⟨hxid, hxs⟩ := (matchesPair_iff cid s x).mp hmx
          have := hall x hx
          simp [hxid, hid, hxs, hs] at this
        simp [hnil]

/-- Under the primary-key constraint, the committee rows with one id
are exactly the one matching row. -/
lemma committeeFilter_eq_single {l : List Committee} {cid : Nat}
    {c : Committee} (hu : committeeIdsUnique l = true) (hc : c ∈ l)
    (hid : c.committee_id = cid) :
    l.filter (matchesId cid) = [c] := by
  induction l with
  | nil => cases hc
  | cons h t ih =>
      rw [committeeIdsUnique, Bool.and_eq_true, List.all_eq_true] at hu
      obtain ⟨hall, hut⟩ := hu
      rcases List.mem_cons.mp hc with hch | hct
      · subst hch
        rw [List.filter_cons, if_pos ((matchesId_iff cid c).mpr hid)]
        have hnil : t.filter (matchesId cid) = [] := by
          rw [List.filter_eq_nil_iff]
          intro x hx hmx
          have hxid := (matchesId_iff cid x).mp hmx
          have := hall x hx
          simp [hxid, hid] at this
        rw [hnil]
      · have hmh : matchesId cid h = false := by
          rcases Bool.eq_false_or_eq_true (matchesId cid h) with htr | hf
          · have hhid := (matchesId_iff cid h).mp htr
            have := hall c hct
            simp [hid, hhid] at this
          · exact hf
        rw [List.filter_cons, if_neg (by simp [hmh])]
        exact ih hut hct

/-! ### Sums of slot requirements -/

lemma slotSum_cons (h : CommitteeSlot) (t : List CommitteeSlot) (k : Nat) :
    slotSum (h :: t) k =
      (if h.committee_id == k then h.slot_requirements else 0) + slotSum t k := by
  rcases Bool.eq_false_or_eq_true (h.committee_id == k) with htr | hf
  · simp [slotSum, List.filter_cons, htr]
  · simp [slotSum, List.filter_cons, hf]

lemma slotSum_append (l1 l2 : List CommitteeSlot) (k : Nat) :
    slotSum (l1 ++ l2) k = slotSum l1 k + slotSum l2 k := by
  simp [slotSum, List.filter_append]

lemma slotSum_single_eq (cid : Nat) (s : String) (n : Int) :
    slotSum [⟨cid, s, n⟩] cid = n := by
  simp [slotSum]

lemma slotSum_single_ne (cid : Nat) (s : String) (n : Int) (k : Nat)
    (hk : k ≠ cid) :
    slotSum [⟨cid, s, n⟩] k = 0 := by
  have : ((⟨cid, s, n⟩ : CommitteeSlot).committee_id == k) = false :=
    beq_eq_false_iff_ne.mpr (fun hcontra => hk (hcontra.symm))
  simp [slotSum, this]

lemma map_setSlotReq_eq_self {l : List CommitteeSlot} {cid : Nat} {s : String}
    (n : Int) (h : ∀ r ∈ l, matchesPair cid s r = false) :
    l.map (setSlotReq cid s n) = l := by
  have hmap : l.map (setSlotReq cid s n) = l.map id :=
    List.map_congr_left (fun r hr => by simp [setSlotReq_of_no_match n (h r hr)])
  simpa using hmap

/-- Updating one pair's row leaves the per-committee sum of any other
committee unchanged. -/
lemma slotSum_map_setSlotReq_ne (l : List CommitteeSlot) (cid : Nat)
    (s : String) (n : Int) (k : Nat) (hk : k ≠ cid) :
    slotSum (l.map (setSlotReq cid s n)) k = slotSum l k := by
  induction l with
  | nil => rfl
  | cons h t ih =>
      rw [List.map_cons, slotSum_cons, slotSum_cons, ih, setSlotReq_committee_id]
      congr 1
      rcases Bool.eq_false_or_eq_true (h.committee_id == k) with htr | hf
      · have hm : matchesPair cid s h = false := by
          rcases Bool.eq_false_or_eq_true (matchesPair cid s h) with hmt | hmf
          · obtain ⟨hid, _⟩ := (matchesPair_iff cid s h).mp hmt
            have hkk : h.committee_id = k := beq_iff_eq.mp htr
            exact absurd (hkk.symm.trans hid) hk
          · exact hmf
        simp [setSlotReq_of_no_match n hm]
      · simp [hf]

/-- Overwriting the unique row of one pair changes that committee's
sum by the signed difference between the new and the old value. -/
lemma slotSum_map_setSlotReq_single {l : List CommitteeSlot} {cid : Nat}
    {s : String} {r : CommitteeSlot} (n : Int)
    (hfil : l.filter (matchesPair cid s) = [r]) :
    slotSum (l.map (setSlotReq cid s n)) cid =
      slotSum l cid + (n - r.slot_requirements) := by
  induction l with
  | nil => simp at hfil
  | cons h t ih =>
      rw [List.filter_cons] at hfil
      rcases Bool.eq_false_or_eq_true (matchesPair cid s h) with htr | hf
      · rw [if_pos htr] at hfil
        injection hfil with hhr hnil
        subst hhr
        obtain ⟨hid, _⟩ := (matchesPair_iff cid s h).mp htr
        have hmapt : t.map (setSlotReq cid s n) = t := by
          refine map_setSlotReq_eq_self n (fun x hx => ?_)
          have hnx := List.filter_eq_nil_iff.mp hnil x hx
          exact Bool.eq_false_iff.mpr hnx
        rw [List.map_cons, hmapt, setSlotReq_of_match n htr, slotSum_cons,
            slotSum_cons]
        have hbeq : (h.committee_id == cid) = true := beq_iff_eq.mpr hid
        simp only [hbeq, if_true]
        omega
      · rw [if_neg (by simp [hf])] at hfil
        rw [List.map_cons, setSlotReq_of_no_match n hf, slotSum_cons,
            slotSum_cons, ih hfil]
        omega

/-! ### Characterizations of the three slot-accounting operations -/

/-- The post-transaction state of `updateCommitteeSlots`: the slot rows
after the SET clause and the committee rows after the aggregate
adjustment by `d`. -/
def afterSlotUpdate (cid : Nat) (s : String) (n : Int) (d : Option Int)
    (db : DB) : DB :=
  { db with
      committee_slots := db.committee_slots.map (setSlotReq cid s n),
      committees := db.committees.map (bumpTotal cid d) }

/-- The post-transaction state of a successful `addCommitteeSlots`. -/
def afterSlotInsert (cid : Nat) (s : String) (n : Int) (db : DB) : DB :=
  { db with
      committee_slots := db.committee_slots ++ [⟨cid, s, n⟩],
      committees := db.committees.map (bumpTotal cid (some n)) }

/-- When exactly one row matches the pair, the pre-read succeeds with
the difference taken from that row, and the two-statement transaction
overwrites the row and adjusts the aggregate by that difference. -/
lemma updateCommitteeSlots_eq_of_single {db : DB} {cid : Nat} {s : String}
    {r : CommitteeSlot} (n : Int)
    (hfil : db.committee_slots.filter (matchesPair cid s) = [r]) :
    updateCommitteeSlots cid s n db =
      (.ok (1, (db.committees.filter (matchesId cid)).length),
        afterSlotUpdate cid s n (some (n - r.slot_requirements)) db) := by
  unfold updateCommitteeSlots selectDifference updateSlotRow
    updateCommitteeTotal afterSlotUpdate
  rw [hfil]
  simp

/-- When no row matches the pair, the pre-read rejects, the rejection
is caught, the formatted delta is NULL, and the transaction still runs:
the slot update touches zero rows and the aggregate update runs with a
NULL delta. -/
lemma updateCommitteeSlots_eq_of_missing {db : DB} {cid : Nat} {s : String}
    (n : Int)
    (hfil : db.committee_slots.filter (matchesPair cid s) = []) :
    updateCommitteeSlots cid s n db =
      (.ok (0, (db.committees.filter (matchesId cid)).length),
        afterSlotUpdate cid s n none db) := by
  unfold updateCommitteeSlots selectDifference updateSlotRow
    updateCommitteeTotal afterSlotUpdate
  rw [hfil]
  simp

/-- When both foreign keys exist and the pair is free, the insert
succeeds and the transaction commits the insert together with the
aggregate increment. -/
lemma addCommitteeSlots_success_eq {db : DB} {cid : Nat} {s : String}
    (n : Int) (hc : committeeExists db cid = true)
    (hd : divisionExists db s = true) (hs : slotExists db cid s = false) :
    addCommitteeSlots cid s n db =
      (.ok (cid, (db.committees.filter (matchesId cid)).length),
        afterSlotInsert cid s n db) := by
  unfold addCommitteeSlots insertCommitteeSlot updateCommitteeTotal
    afterSlotInsert
  simp [hc, hd, hs]

lemma exists_row_of_slotExists {db : DB} {cid : Nat} {s : String}
    (h : slotExists db cid s = true) :
    ∃ r ∈ db.committee_slots, matchesPair cid s r = true := by
  simpa [slotExists, List.any_eq_true] using h

lemma slotFilter_eq_nil_of_not_exists {db : DB} {cid : Nat} {s : String}
    (h : slotExists db cid s = false) :
    db.committee_slots.filter (matchesPair cid s) = [] := by
  rw [List.filter_eq_nil_iff]
  intro x hx hmx
  have hex : slotExists db cid s = true :=
    List.any_eq_true.mpr ⟨x, hx, hmx⟩
  rw [h] at hex
  cases hex

/-! ### Invariant preservation -/

/-- A successful slot creation preserves the derived-aggregate
invariant: the inserted requirement joins the sum exactly as the
aggregate increment joins `total_slots`. -/
lemma invariant_afterSlotInsert {db : DB} (hinv : db.invariant)
    (cid : Nat) (s : String) (n : Int) :
    (afterSlotInsert cid s n db).invariant := by
  intro c' hc'
  unfold afterSlotInsert at hc' ⊢
  simp only at hc' ⊢
  obtain ⟨c, hc, rfl⟩ := List.mem_map.mp hc'
  have hS := hinv c hc
  rcases Bool.eq_false_or_eq_true (matchesId cid c) with htr | hf
  · have hid := (matchesId_iff cid c).mp htr
    rw [bumpTotal_of_match _ htr]
    show sqlAdd c.total_slots (some n) = _
    rw [hS, slotSum_append, hid, slotSum_single_eq]
    simp [sqlAdd]
  · have hne : c.committee_id ≠ cid := by
      intro hcontra
      rw [(matchesId_iff cid c).mpr hcontra] at hf
      cases hf
    rw [bumpTotal_of_no_match _ hf, hS, slotSum_append,
        slotSum_single_ne cid s n c.committee_id hne]
    simp

/-- A delta-propagating slot update on the unique matching row
preserves the derived-aggregate invariant. -/
lemma invariant_afterSlotUpdate {db : DB} (hinv : db.invariant)
    {cid : Nat} {s : String} {r : CommitteeSlot} (n : Int)
    (hfil : db.committee_slots.filter (matchesPair cid s) = [r]) :
    (afterSlotUpdate cid s n (some (n - r.slot_requirements)) db).invariant := by
  intro c' hc'
  unfold afterSlotUpdate at hc' ⊢
  simp only at hc' ⊢
  obtain ⟨c, hc, rfl⟩ := List.mem_map.mp hc'
  have hS := hinv c hc
  rcases Bool.eq_false_or_eq_true (matchesId cid c) with htr | hf
  · have hid := (matchesId_iff cid c).mp htr
    rw [bumpTotal_of_match _ htr]
    show sqlAdd c.total_slots (some (n - r.slot_requirements)) = _
    rw [hS, hid, slotSum_map_setSlotReq_single n hfil]
    simp [sqlAdd]
  · have hne : c.committee_id ≠ cid := by
      intro hcontra
      rw [(matchesId_iff cid c).mpr hcontra] at hf
      cases hf
    rw [bumpTotal_of_no_match _ hf, hS,
        slotSum_map_setSlotReq_ne _ cid s n c.committee_id hne]

/-! ### Shared specification of the update on an existing row -/

/-- On a well-formed state holding a slot row `(cid, s, c)` and its
parent committee with aggregate `t`, the update to `n` resolves with
row counts `(1, 1)`, the slot row now reads `n`, and the parent's
aggregate now reads `t + (n - c)`. -/
lemma updateCommitteeSlots_existing_spec {db : DB} (hwf : db.wf)
    {cid : Nat} {s : String} {c n t : Int} {co : Committee}
    (hco : co ∈ db.committees) (hid : co.committee_id = cid)
    (ht : co.total_slots = some t)
    (hrow : (⟨cid, s, c⟩ : CommitteeSlot) ∈ db.committee_slots) :
    updateCommitteeSlots cid s n db =
      (.ok (1, 1), afterSlotUpdate cid s n (some (n - c)) db) ∧
    (⟨cid, s, n⟩ : CommitteeSlot) ∈
      (afterSlotUpdate cid s n (some (n - c)) db).committee_slots ∧
    { co with total_slots := some (t + (n - c)) } ∈
      (afterSlotUpdate cid s n (some (n - c)) db).committees := by
  have hm : matchesPair cid s (⟨cid, s, c⟩ : CommitteeSlot) = true := by
    simp [matchesPair]
  have hfil := slotFilter_eq_single hwf.2 hrow hm
  have hcfil := committeeFilter_eq_single hwf.1 hco hid
  refine ⟨?_, ?_, ?_⟩
  · have heq := updateCommitteeSlots_eq_of_single n hfil
    rw [heq, hcfil]
    rfl
  · unfold afterSlotUpdate
    simp only
    have : setSlotReq cid s n ⟨cid, s, c⟩ = (⟨cid, s, n⟩ : CommitteeSlot) :=
      setSlotReq_of_match n hm
    exact this ▸ List.mem_map_of_mem (setSlotReq cid s n) hrow
  · unfold afterSlotUpdate
    simp only
    have hb : bumpTotal cid (some (n - c)) co =
        { co with total_slots := some (t + (n - c)) } := by
      rw [bumpTotal_of_match _ ((matchesId_iff cid co).mpr hid), ht]
      rfl
    exact hb ▸ List.mem_map_of_mem (bumpTotal cid (some (n - c))) hco

/-! ### Concrete states used by witnesses and counterexamples -/

/-- A small well-formed state satisfying the invariant: one committee
with aggregate 5 and one slot row requiring 5. -/
def dbSeed : DB :=
  ⟨[⟨1, "A", "d", some 5⟩], [⟨"AO", "Arts"⟩, ⟨"BQ", "Biology"⟩], [⟨1, "AO", 5⟩]⟩

/-- A committee with aggregate 5 and no slot rows. -/
def dbNoSlots : DB :=
  ⟨[⟨1, "A", "d", some 5⟩], [⟨"AO", "Arts"⟩], []⟩

/-- Elimination principle for a successful creation: success implies
both foreign keys existed, the pair was free, and the post state is
the committed insert-plus-increment. -/
lemma addCommitteeSlots_ok_elim {db db' : DB} {cid : Nat} {s : String}
    {n : Int} {v : Nat × Nat}
    (h : addCommitteeSlots cid s n db = (.ok v, db')) :
    committeeExists db cid = true ∧ divisionExists db s = true ∧
      slotExists db cid s = false ∧ db' = afterSlotInsert cid s n db := by
  cases hc : committeeExists db cid with
  | false =>
      unfold addCommitteeSlots insertCommitteeSlot at h
      rw [hc] at h
      simp at h
  | true =>
      cases hd : divisionExists db s with
      | false =>
          unfold addCommitteeSlots insertCommitteeSlot at h
          rw [hc, hd] at h
          simp at h
      | true =>
          cases hs : slotExists db cid s with
          | true =>
              unfold addCommitteeSlots insertCommitteeSlot at h
              rw [hc, hd, hs] at h
              simp at h
          | false =>
              rw [addCommitteeSlots_success_eq n hc hd hs] at h
              exact ⟨rfl, rfl, rfl, (congrArg Prod.snd h).symm⟩

/-- C1: the claim as stated is false on the code.  A state satisfying
the invariant (committee 1 has aggregate 5, its single slot requires
5) loses it after `deleteSlotRequirement`, which removes the row but
leaves the aggregate at 5 while the sum drops to 0. -/
theorem C1_counterexample :
    DB.invariant ⟨[⟨1, "A", "d", some 5⟩], [⟨"AO", "Arts"⟩], [⟨1, "AO", 5⟩]⟩ ∧
    (deleteSlotRequirement 1 "AO"
        ⟨[⟨1, "A", "d", some 5⟩], [⟨"AO", "Arts"⟩], [⟨1, "AO", 5⟩]⟩).1 = .ok 1 ∧
    ¬ (deleteSlotRequirement 1 "AO"
        ⟨[⟨1, "A", "d", some 5⟩], [⟨"AO", "Arts"⟩], [⟨1, "AO", 5⟩]⟩).2.invariant := by
  decide

/-- C1 (amended): on a well-formed state satisfying the
derived-aggregate invariant `totalSlots = Σ slot_requirements`, the
create operation preserves the invariant whenever it succeeds, and the
update operation preserves it whenever the target slot row exists.
The delete operation does not preserve it (it removes the row without
adjusting the aggregate), and neither does an update whose target row
is missing (it nulls the aggregate). -/
theorem C1_create_update_preserve_invariant (db : DB) (hwf : db.wf)
    (hinv : db.invariant) :
    (∀ cid s n v db', addCommitteeSlots cid s n db = (.ok v, db') →
       db'.invariant) ∧
    (∀ cid s n v db', slotExists db cid s = true →
       updateCommitteeSlots cid s n db = (.ok v, db') → db'.invariant) := by
  constructor
  · intro cid s n v db' h
    obtain ⟨_, _, _, hdb⟩ := addCommitteeSlots_ok_elim h
    rw [hdb]
    exact invariant_afterSlotInsert hinv cid s n
  · intro cid s n v db' hex h
    obtain ⟨r, hr, hm⟩ := exists_row_of_slotExists hex
    have hfil := slotFilter_eq_single hwf.2 hr hm
    rw [updateCommitteeSlots_eq_of_single n hfil] at h
    have hdb : db' = afterSlotUpdate cid s n (some (n - r.slot_requirements)) db :=
      (congrArg Prod.snd h).symm
    rw [hdb]
    exact invariant_afterSlotUpdate hinv n hfil

/-- C1 witness: the amended theorem applied to the concrete seeded
state. -/
theorem C1_witness :
    (∀ cid s n v db', addCommitteeSlots cid s n dbSeed = (.ok v, db') →
       db'.invariant) ∧
    (∀ cid s n v db', slotExists dbSeed cid s = true →
       updateCommitteeSlots cid s n dbSeed = (.ok v, db') → db'.invariant) :=
  C1_create_update_preserve_invariant dbSeed (by decide) (by decide)

/-- C2: updating an existing slot row with current value `c` to a new
value `n` resolves with row counts `(1, 1)` and, in the single
committed post state, the row reads `n` and the parent committee's
aggregate has moved by exactly `n - c`; both writes are part of the
same transaction, so neither can apply alone. -/
theorem C2_update_rewrites_row_and_aggregate (db : DB) (hwf : db.wf)
    (cid : Nat) (s : String) (c n t : Int) (co : Committee)
    (hco : co ∈ db.committees) (hid : co.committee_id = cid)
    (ht : co.total_slots = some t)
    (hrow : (⟨cid, s, c⟩ : CommitteeSlot) ∈ db.committee_slots) :
    ∃ db', updateCommitteeSlots cid s n db = (.ok (1, 1), db') ∧
      (⟨cid, s, n⟩ : CommitteeSlot) ∈ db'.committee_slots ∧
      { co with total_slots := some (t + (n - c)) } ∈ db'.committees := by
  obtain ⟨h1, h2, h3⟩ := updateCommitteeSlots_existing_spec hwf hco hid ht hrow
  exact ⟨_, h1, h2, h3⟩

/-- C2 witness: in the seeded state, updating slot `(1, AO)` from 5 to
3 gives row counts `(1, 1)`, the row reads 3 and the aggregate reads
`5 + (3 - 5) = 3`. -/
theorem C2_witness :
    ∃ db', updateCommitteeSlots 1 "AO" 3 dbSeed = (.ok (1, 1), db') ∧
      (⟨1, "AO", 3⟩ : CommitteeSlot) ∈ db'.committee_slots ∧
      { (⟨1, "A", "d", some 5⟩ : Committee) with
          total_slots := some (5 + (3 - 5)) } ∈ db'.committees :=
  C2_update_rewrites_row_and_aggregate dbSeed (by decide) 1 "AO" 5 3 5
    ⟨1, "A", "d", some 5⟩ (by decide) rfl rfl (by decide)

/-- C3: the claim says an update whose pair has no slot row applies no
partial update and leaves the parent's `totalSlots` unchanged.  The
code violates this: the caught pre-read error makes the delta
parameter NULL, the transaction still commits, and the parent's
`total_slots` becomes NULL.  At the failing input (committee 1 with
aggregate 5, no slot rows, update of pair `(1, AO)` to 3) the
operation resolves with row counts `(0, 1)` and the committee row ends
with `total_slots = NULL`, not 5. -/
theorem C3_missing_row_nulls_aggregate :
    updateCommitteeSlots 1 "AO" 3 dbNoSlots =
      (.ok (0, 1), ⟨[⟨1, "A", "d", none⟩], [⟨"AO", "Arts"⟩], []⟩) := by
  decide

/-- C4: on a well-formed state where the committee and the division
both exist, the pair is free and the parent's aggregate is `t`,
creating a slot with requirement `n` resolves with the committee id
and row count 1, and in the committed state the new row is present
with requirement `n` and the parent's aggregate reads `t + n`. -/
theorem C4_create_inserts_row_and_increments (db : DB) (hwf : db.wf)
    (cid : Nat) (s : String) (n t : Int) (co : Committee)
    (hco : co ∈ db.committees) (hid : co.committee_id = cid)
    (ht : co.total_slots = some t) (hd : divisionExists db s = true)
    (hs : slotExists db cid s = false) :
    ∃ db', addCommitteeSlots cid s n db = (.ok (cid, 1), db') ∧
      (⟨cid, s, n⟩ : CommitteeSlot) ∈ db'.committee_slots ∧
      { co with total_slots := some (t + n) } ∈ db'.committees := by
  have hc : committeeExists db cid = true :=
    List.any_eq_true.mpr ⟨co, hco, (matchesId_iff cid co).mpr hid⟩
  have heq := addCommitteeSlots_success_eq n hc hd hs
  have hcfil := committeeFilter_eq_single hwf.1 hco hid
  refine ⟨afterSlotInsert cid s n db, ?_, ?_, ?_⟩
  · rw [heq, hcfil]
    rfl
  · unfold afterSlotInsert
    simp
  · unfold afterSlotInsert
    simp only
    have hb : bumpTotal cid (some n) co =
        { co with total_slots := some (t + n) } := by
      rw [bumpTotal_of_match _ ((matchesId_iff cid co).mpr hid), ht]
      rfl
    exact hb ▸ List.mem_map_of_mem (bumpTotal cid (some n)) hco

/-- C4 witness: in the seeded state, creating slot `(1, BQ)` with
requirement 7 returns `(1, 1)`, adds the row and moves the aggregate
from 5 to 12. -/
theorem C4_witness :
    ∃ db', addCommitteeSlots 1 "BQ" 7 dbSeed = (.ok (1, 1), db') ∧
      (⟨1, "BQ", 7⟩ : CommitteeSlot) ∈ db'.committee_slots ∧
      { (⟨1, "A", "d", some 5⟩ : Committee) with
          total_slots := some (5 + 7) } ∈ db'.committees :=
  C4_create_inserts_row_and_increments dbSeed (by decide) 1 "BQ" 7 5
    ⟨1, "A", "d", some 5⟩ (by decide) rfl rfl (by decide) (by decide)

/-- C5: a creation naming a missing committee or division, or a pair
that already has a row, rejects with a conflict-class constraint error
and the transaction rolls back, leaving the state (in particular every
`total_slots`) exactly as before. -/
theorem C5_create_conflict_no_state_change (db : DB) (cid : Nat)
    (s : String) (n : Int)
    (h : committeeExists db cid = false ∨ divisionExists db s = false ∨
         slotExists db cid s = true) :
    ∃ e, addCommitteeSlots cid s n db = (.error e, db) ∧
      (e = SqlError.foreignKeyViolation ∨ e = SqlError.uniqueViolation) := by
  cases hc : committeeExists db cid with
  | false =>
      refine ⟨.foreignKeyViolation, ?_, Or.inl rfl⟩
      unfold addCommitteeSlots insertCommitteeSlot
      simp [hc]
  | true =>
      cases hd : divisionExists db s with
      | false =>
          refine ⟨.foreignKeyViolation, ?_, Or.inl rfl⟩
          unfold addCommitteeSlots insertCommitteeSlot
          simp [hc, hd]
      | true =>
          cases hs : slotExists db cid s with
          | true =>
              refine ⟨.uniqueViolation, ?_, Or.inr rfl⟩
              unfold addCommitteeSlots insertCommitteeSlot
              simp [hc, hd, hs]
          | false =>
              rcases h with h | h | h
              · rw [hc] at h
                cases h
              · rw [hd] at h
                cases h
              · rw [hs] at h
                cases h

/-- C5 witness: creating a duplicate `(1, AO)` slot in the seeded
state rejects with the uniqueness conflict and leaves the state
untouched. -/
theorem C5_witness :
    ∃ e, addCommitteeSlots 1 "AO" 4 dbSeed = (.error e, dbSeed) ∧
      (e = SqlError.foreignKeyViolation ∨ e = SqlError.uniqueViolation) :=
  C5_create_conflict_no_state_change dbSeed 1 "AO" 4 (Or.inr (Or.inr (by decide)))

/-- C6: on a well-formed state, delete resolves (it is not an error at
this layer) with a row count that is 0 or 1, and the count is 0
exactly when no row matches the pair — a missing pair is signalled by
the zero count, not by a rejection. -/
theorem C6_delete_rowcount (db : DB) (hwf : db.wf) (cid : Nat) (s : String) :
    ∃ rc db', deleteSlotRequirement cid s db = (.ok rc, db') ∧ rc ≤ 1 ∧
      (rc = 0 ↔ slotExists db cid s = false) := by
  refine ⟨_, _, rfl, ?_, ?_⟩
  · exact slotFilter_length_le_one _ cid s hwf.2
  · constructor
    · intro h0
      have hnil := List.length_eq_zero.mp h0
      cases hex : slotExists db cid s with
      | false => rfl
      | true =>
          obtain ⟨r, hr, hm⟩ := exists_row_of_slotExists hex
          have hmem : r ∈ db.committee_slots.filter (matchesPair cid s) :=
            List.mem_filter_of_mem hr hm
          rw [hnil] at hmem
          cases hmem
    · intro hex
      rw [slotFilter_eq_nil_of_not_exists hex]
      rfl

/-- C6 witness: deleting the missing pair `(1, BQ)` from the seeded
state succeeds with row count 0. -/
theorem C6_witness :
    ∃ rc db', deleteSlotRequirement 1 "BQ" dbSeed = (.ok rc, db') ∧ rc ≤ 1 ∧
      (rc = 0 ↔ slotExists dbSeed 1 "BQ" = false) :=
  C6_delete_rowcount dbSeed (by decide) 1 "BQ"

/-- C7: delete leaves the committee and senate-division tables exactly
as they were — in particular it never adjusts `total_slots` — and its
only effect on `committee_slots` is dropping the rows matching the
pair; every non-matching row survives. -/
theorem C7_delete_frame (db : DB) (cid : Nat) (s : String) :
    (deleteSlotRequirement cid s db).2.committees = db.committees ∧
    (deleteSlotRequirement cid s db).2.senate_divisions = db.senate_divisions ∧
    (deleteSlotRequirement cid s db).2.committee_slots =
      db.committee_slots.filter (fun r => !(matchesPair cid s r)) ∧
    ∀ r ∈ db.committee_slots, matchesPair cid s r = false →
      r ∈ (deleteSlotRequirement cid s db).2.committee_slots := by
  refine ⟨rfl, rfl, rfl, fun r hr hm => ?_⟩
  exact List.mem_filter_of_mem hr (by simp [hm])

/-- C7 witness: the frame property at the seeded state and the pair
`(1, AO)` whose row is deleted. -/
theorem C7_witness :
    (deleteSlotRequirement 1 "AO" dbSeed).2.committees = dbSeed.committees ∧
    (deleteSlotRequirement 1 "AO" dbSeed).2.senate_divisions =
      dbSeed.senate_divisions ∧
    (deleteSlotRequirement 1 "AO" dbSeed).2.committee_slots =
      dbSeed.committee_slots.filter (fun r => !(matchesPair 1 "AO" r)) ∧
    ∀ r ∈ dbSeed.committee_slots, matchesPair 1 "AO" r = false →
      r ∈ (deleteSlotRequirement 1 "AO" dbSeed).2.committee_slots :=
  C7_delete_frame dbSeed 1 "AO"

/-- C8: the claim that only the slot-accounting operations write
`total_slots` is false on the code: the exported `updateCommittee`
operation overwrites `total_slots` directly.  Concretely, updating
committee 1 (aggregate 5) with `slots = 9` resolves with row count 1
and leaves the committee row with `total_slots = 9` although no
slot-accounting operation ran. -/
theorem C8_counterexample :
    updateCommittee 1 "A" "d2" (some 9) ⟨[⟨1, "A", "d", some 5⟩], [], []⟩ =
      (.ok 1, ⟨[⟨1, "A", "d2", some 9⟩], [], []⟩) := by
  decide

/-- C8 (amended): `total_slots` is written by the slot-accounting
create and update operations, but also directly by the committee-level
operations: `addCommittee` sets it on the inserted row and
`updateCommittee` overwrites it on the matched row.  The slot delete
operation never writes the committee table. -/
theorem C8_total_slots_writers :
    (∀ db cid s, (deleteSlotRequirement cid s db).2.committees = db.committees) ∧
    (∀ db id nm d sl rc db', updateCommittee id nm d sl db = (.ok rc, db') →
       ∀ co ∈ db.committees, co.committee_id = id →
         { co with name := nm, description := d, total_slots := sl } ∈
           db'.committees) ∧
    (∀ db nm d sl newId rid db', addCommittee nm d sl newId db = (.ok rid, db') →
       (⟨newId, nm, d, sl⟩ : Committee) ∈ db'.committees) := by
  refine ⟨fun db cid s => rfl, ?_, ?_⟩
  · intro db id nm d sl rc db' h co hco hcid
    cases hg : db.committees.any (fun c => c.name == nm && c.committee_id != id) with
    | true =>
        unfold updateCommittee at h
        rw [hg] at h
        simp at h
    | false =>
        unfold updateCommittee at h
        rw [hg] at h
        simp only [Bool.false_eq_true, if_false] at h
        have hdb : db' =
            { db with committees := db.committees.map (fun c =>
                if matchesId id c then
                  { c with name := nm, description := d, total_slots := sl }
                else c) } :=
          (congrArg Prod.snd h).symm
        rw [hdb]
        simp only
        have hval : (fun c => if matchesId id c then
              { c with name := nm, description := d, total_slots := sl }
            else c) co =
            { co with name := nm, description := d, total_slots := sl } := by
          simp [(matchesId_iff id co).mpr hcid]
        exact hval ▸ List.mem_map_of_mem _ hco
  · intro db nm d sl newId rid db' h
    cases hg : db.committees.any (fun c => c.name == nm) with
    | true =>
        unfold addCommittee at h
        rw [hg] at h
        simp at h
    | false =>
        unfold addCommittee at h
        rw [hg] at h
        simp only [Bool.false_eq_true, if_false] at h
        have hdb : db' =
            { db with committees := db.committees ++ [⟨newId, nm, d, sl⟩] } :=
          (congrArg Prod.snd h).symm
        rw [hdb]
        simp

/-- C8 witness: `updateCommittee` at the concrete failing state writes
`total_slots = 9` onto committee 1. -/
theorem C8_witness :
    { (⟨1, "A", "d", some 5⟩ : Committee) with
        name := "B", description := "d2", total_slots := some 9 } ∈
      (⟨[⟨1, "B", "d2", some 9⟩], [], []⟩ : DB).committees :=
  C8_total_slots_writers.2.1 ⟨[⟨1, "A", "d", some 5⟩], [], []⟩ 1 "B" "d2"
    (some 9) 1 ⟨[⟨1, "B", "d2", some 9⟩], [], []⟩ (by decide)
    ⟨1, "A", "d", some 5⟩ (by decide) rfl

/-- C9: the update applies the signed delta with exact integer
arithmetic and no clamping: from aggregate `t` and current value `c`,
updating to `n` leaves the parent's aggregate at exactly
`t + (n - c)`, even when that value is negative. -/
theorem C9_signed_delta_no_clamp (db : DB) (hwf : db.wf) (cid : Nat)
    (s : String) (c n t : Int) (co : Committee) (hco : co ∈ db.committees)
    (hid : co.committee_id = cid) (ht : co.total_slots = some t)
    (hrow : (⟨cid, s, c⟩ : CommitteeSlot) ∈ db.committee_slots) :
    ∃ rcs db', updateCommitteeSlots cid s n db = (.ok rcs, db') ∧
      { co with total_slots := some (t + (n - c)) } ∈ db'.committees := by
  obtain ⟨h1, _, h3⟩ := updateCommitteeSlots_existing_spec hwf hco hid ht hrow
  exact ⟨_, _, h1, h3⟩

/-- C9 witness: aggregate 2, slot value 5, update to 0 — the aggregate
becomes `2 + (0 - 5) = -3`, a negative value, with no clamping. -/
theorem C9_witness :
    ∃ rcs db',
      updateCommitteeSlots 1 "AO"
        0 ⟨[⟨1, "A", "d", some 2⟩], [⟨"AO", "Arts"⟩], [⟨1, "AO", 5⟩]⟩ =
        (.ok rcs, db') ∧
      { (⟨1, "A", "d", some 2⟩ : Committee) with
          total_slots := some (2 + (0 - 5)) } ∈ db'.committees :=
  C9_signed_delta_no_clamp ⟨[⟨1, "A", "d", some 2⟩], [⟨"AO", "Arts"⟩], [⟨1, "AO", 5⟩]⟩
    (by decide) 1 "AO" 5 0 2 ⟨1, "A", "d", some 2⟩ (by decide) rfl rfl (by decide)

/-- C10: when the pair has no slot row the separate pre-read rejects,
but the rejection is caught and turned into an ordinary value, so the
operation's returned promise still resolves: the two-statement
transaction is issued anyway (with a NULL delta) and settles with row
count 0 for the slot update — rejection could only come from the
transaction itself. -/
theorem C10_preread_failure_never_rejects (db : DB) (cid : Nat)
    (s : String) (n : Int) (h : slotExists db cid s = false) :
    updateCommitteeSlots cid s n db =
      (.ok (0, (db.committees.filter (matchesId cid)).length),
        afterSlotUpdate cid s n none db) :=
  updateCommitteeSlots_eq_of_missing n (slotFilter_eq_nil_of_not_exists h)

/-- C10 witness: the missing pair `(1, AO)` on a committee with no
slot rows — the returned value is a success carrying row count 0, and
the transaction ran. -/
theorem C10_witness :
    updateCommitteeSlots 1 "AO" 3 dbNoSlots =
      (.ok (0, (dbNoSlots.committees.filter (matchesId 1)).length),
        afterSlotUpdate 1 "AO" 3 none dbNoSlots) :=
  C10_preread_failure_never_rejects dbNoSlots 1 "AO" 3 (by decide)

end CocServer
